import Mathlib

/-!
Verification of the PythonE2B repository: a shallow embedding in Lean 4 of
the agent-tool execution loop, the sandbox execution adapters, and the
session/conversation store (sources: `code_interpreter.py`, `workflow.py`,
`conversation.py`, `app.py`), with theorems settling the specification
claims about them.

Remote interactions (the E2B sandbox, the local filesystem, the inference
service) are modelled as oracle functions returning `Except String α`:
`.error e` models a raised Python exception with message `e`, `.ok v` a
normal return.  Python dicts whose key sets vary are modelled as
structures with `Option` fields (`none` = key absent), and `d.get k`
accessors are given explicitly where the code reads them.
-/

namespace PythonE2B

/-! ## Python dict helpers (string-keyed dicts as association lists) -/

/-- `d[k] = v` on a string-keyed dict: replace the binding if the key is
present, append it otherwise. -/
def dictInsert (k : String) (v : α) : List (String × α) → List (String × α)
  | [] => [(k, v)]
  | (k', v') :: rest =>
    if k' = k then (k, v) :: rest else (k', v') :: dictInsert k v rest

/-- `del d[k]`: remove every binding of the key. -/
def dictErase (k : String) (l : List (String × α)) : List (String × α) :=
  l.filter (fun p => p.1 ≠ k)

/-! ## Data model shared across modules -/

/-- Message roles, as reported by langchain's `message.type`
(`"system"`, `"human"`, `"ai"`, `"tool"`). -/
inductive MsgType
  | system
  | human
  | ai
  | tool
deriving DecidableEq, Repr

/-- One entry of an assistant message's `tool_calls` list:
tool name, correlation id, and the argument payload (for the code tool,
the code string bound to the `"code"` argument). -/
structure ToolCall where
  name : String
  id : String
  args : String
deriving DecidableEq, Repr

/-- The dict returned by `CodeInterpreterFunctionTool.call`
(`code_interpreter.py` lines 37-42): keys `results`, `stdout`, `stderr`,
`error`.  Note the dict carries **no** `success` key.  `stdout`/`stderr`
are the `execution.logs` line lists; `error` is the interpreter-level
error object or `None`. -/
structure CallDict where
  results : List String
  stdout : List String
  stderr : List String
  error : Option String
deriving DecidableEq, Repr

/-- `d.get "success")` on a `CallDict`: the key is absent, so Python's
`dict.get` returns `None`. -/
def CallDict.get_success (_ : CallDict) : Option Bool := none

/-- `d.get "error"` on a `CallDict`: the key is present. -/
def CallDict.get_error (d : CallDict) : Option String := d.error

/-- One artifact entry appended by `E2BCodeInterpreter.execute_code`
(lines 204-208): `{'type': 'image', 'format': ..., 'data': base64}`. -/
structure Artifact where
  type : String
  format : String
  data : String
deriving DecidableEq, Repr

/-- The dict returned by `E2BCodeInterpreter.execute_code` (lines 171-176,
179-184, 215-220): keys `success`, `stdout`, `stderr`, `artifacts`.  Note
the dict carries **no** `error` key. -/
structure ExecDict where
  success : Bool
  stdout : String
  stderr : String
  artifacts : List Artifact
deriving DecidableEq, Repr

/-- `d.get "success"` on an `ExecDict`: the key is always present. -/
def ExecDict.get_success (d : ExecDict) : Option Bool := some d.success

/-- `d.get "error"` on an `ExecDict`: the key is absent, so Python's
`dict.get` returns `None`. -/
def ExecDict.get_error (_ : ExecDict) : Option String := none

/-- A conversation turn (langchain `BaseMessage`, including the repo's
`RichToolMessage` with its extra `raw_output` field). -/
structure Message where
  type : MsgType
  content : String
  tool_calls : List ToolCall := []
  tool_call_id : String := ""
  raw_output : Option CallDict := none
deriving DecidableEq, Repr

instance : Inhabited Message := ⟨{ type := MsgType.ai, content := "" }⟩

/-! ## `code_interpreter.py`: `CodeInterpreterFunctionTool` -/

/-- The remote `run_code` result (`e2b_code_interpreter` `Execution`):
result values, stdout/stderr log lines, and the optional
interpreter-level error. -/
structure Execution where
  results : List String
  stdout : List String
  stderr : List String
  error : Option String
deriving DecidableEq, Repr

/-- `CodeInterpreterFunctionTool.tool_name` (line 19). -/
def CodeInterpreterFunctionTool.tool_name : String := "code_interpreter"

/-- `CodeInterpreterFunctionTool.call` (lines 33-42).  `run_code` is the
remote sandbox call; the source wraps it in **no** try/except, so a raised
exception (`.error`) propagates to the caller unchanged.  `parameters` is
the argument dict; `code = parameters.get("code", "")`. -/
def CodeInterpreterFunctionTool.call (run_code : String → Except String Execution)
    (parameters : List (String × String)) : Except String CallDict :=
  let code := (parameters.lookup "code").getD ""
  match run_code code with
  | .error e => .error e
  | .ok execution =>
      .ok { results := execution.results
            stdout := execution.stdout
            stderr := execution.stderr
            error := execution.error }

/-- Rendering of a `CallDict` without its `results` key, modelling the
`json.dumps({k: v for k, v in output.items() if k not in ("results")},
indent=2)` text of `format_to_tool_message` (lines 60-63); the exact JSON
layout is immaterial to every claim, only that `results` is dropped. -/
def dumpCallDictNoResults (d : CallDict) : String :=
  "stdout: " ++ String.intercalate "\n" d.stdout ++
  "\nstderr: " ++ String.intercalate "\n" d.stderr ++
  "\nerror: " ++ (d.error.getD "null")

/-- Rendering of a full `CallDict` (used for the generic-tool branch of
`execute_tools`, where the raw output becomes the message content). -/
def dumpCallDict (d : CallDict) : String :=
  "results: " ++ String.intercalate "\n" d.results ++ "\n" ++ dumpCallDictNoResults d

/-- `CodeInterpreterFunctionTool.format_to_tool_message` (lines 57-68):
wraps a tool output dict as a `RichToolMessage` carrying the originating
`tool_call_id`, the text content without `results`, and the raw output. -/
def CodeInterpreterFunctionTool.format_to_tool_message
    (tool_call_id : String) (output : CallDict) : Message :=
  { type := MsgType.tool
    content := dumpCallDictNoResults output
    tool_calls := []
    tool_call_id := tool_call_id
    raw_output := some output }

/-! ## Sandbox lifecycle events (for the resource claims) -/

/-- The two sandbox instances a `/run` request can provision: the
`CodeInterpreterSandbox` created by `CodeInterpreterFunctionTool.__init__`
and the `e2b.Sandbox` created by `E2BCodeInterpreter.initialize`. -/
inductive Sb
  | ciSandbox
  | e2bSandbox
deriving DecidableEq, Repr

/-- Sandbox lifecycle events observed by the remote provisioning service. -/
inductive REvent
  | provision (s : Sb)
  | close (s : Sb)
deriving DecidableEq, Repr

/-- `CodeInterpreterFunctionTool.close` (lines 30-31): unconditionally
calls `self.code_interpreter.kill()`; the remote kill is issued on every
invocation — there is no already-closed guard. -/
def CodeInterpreterFunctionTool.closeEvents : List REvent :=
  [REvent.close Sb.ciSandbox]

/-! ## Substring search (used by `execute_code`'s figure check and by the
regex-based code block extraction of `workflow.py`) -/

/-- Split a character list at the first occurrence of `pat`: returns the
part before the occurrence and the part after it, or `none` when `pat`
does not occur. -/
def splitAtSub (pat : List Char) : List Char → Option (List Char × List Char)
  | [] => if pat = [] then some ([], []) else none
  | c :: rest =>
    if pat.isPrefixOf (c :: rest) then some ([], (c :: rest).drop pat.length)
    else
      match splitAtSub pat rest with
      | some (b, a) => some (c :: b, a)
      | none => none

/-- Python's `pat in s` substring test. -/
def containsSub (pat s : String) : Bool := (splitAtSub pat.toList s.toList).isSome

/-! ## `code_interpreter.py`: `E2BCodeInterpreter` -/

/-- Uploaded-file metadata as stored by `/upload` (`app.py` lines 120-126)
and consumed by `execute_code`. -/
structure FileInfo where
  id : String
  name : String
  path : String
  type : String
  size : Nat
deriving DecidableEq, Repr

/-- Result of `sandbox.process.start_python` / `start_and_wait`: the model
always has the `exit_code`/`stdout`/`stderr` attributes the code probes
with `hasattr`. -/
structure ProcResult where
  exit_code : Int
  stdout : String
  stderr : String
deriving DecidableEq, Repr

/-- One entry of `sandbox.filesystem.list("/home/user/figures")`. -/
structure FigFile where
  name : String
deriving DecidableEq, Repr

/-- Oracles for the remote operations `E2BCodeInterpreter` performs;
`.error e` models a raised exception with message `e`.  `initialize`
covers sandbox creation, `start()` and the `pip install` bootstrap
(lines 74-81). -/
structure E2BSandboxOps where
  sandboxInit : Except String Unit
  make_dir : String → Except String Unit
  read_local_file : String → Except String (List Nat)
  write_file : String → List Nat → Except String Unit
  start_python : String → Except String ProcResult
  ls_figures : Except String ProcResult
  list_figures : Except String (List FigFile)
  read_file : String → Except String (List Nat)

/-- `os.path.basename`: the part after the last `/`. -/
def basename (p : String) : String :=
  String.mk ((p.toList.reverse.takeWhile (fun c => c ≠ '/')).reverse)

/-- The part of a string after its last `.` (the whole string when it has
no dot): Python's `name.split(".")[-1]` (line 206). -/
def lastDotComponent (s : String) : String :=
  String.mk ((s.toList.reverse.takeWhile (fun c => c ≠ '.')).reverse)

/-- `filename.split(".")[-1].lower() if "." in filename else ""`
(line 131). -/
def extLowerOf (filename : String) : String :=
  if filename.toList.contains '.' then
    String.mk (((lastDotComponent filename).toList).map Char.toLower)
  else ""

/-- The stem of `os.path.splitext`: the name up to its last dot (the whole
name when it has no dot). -/
def splitextStem (l : List Char) : List Char :=
  let suffix := l.reverse.takeWhile (fun c => c ≠ '.')
  if suffix.length = l.length then l
  else (l.reverse.drop (suffix.length + 1)).reverse

/-- `os.path.splitext(filename)[0].replace(" ", "_").replace("-", "_").lower()`
(line 132). -/
def varNameOf (filename : String) : String :=
  String.mk (((splitextStem filename.toList).map
    (fun c => if c = ' ' ∨ c = '-' then '_' else c)).map Char.toLower)

/-- `file_ext_mappings` (lines 118-125). -/
def file_ext_mappings (ext : String) : Option String :=
  if ext = "csv" then some "pd.read_csv"
  else if ext = "xlsx" then some "pd.read_excel"
  else if ext = "xls" then some "pd.read_excel"
  else if ext = "json" then some "pd.read_json"
  else if ext = "txt" then some "open"
  else if ext = "py" then some "open"
  else none

/-- One line of `file_loader_code` for a staged path (lines 129-140). -/
def loaderLine (path : String) : String :=
  let filename := basename path
  let ext := extLowerOf filename
  let var_name := varNameOf filename
  match file_ext_mappings ext with
  | some fn =>
    if ext = "txt" ∨ ext = "py" then
      "# " ++ path ++ " - Use with: " ++ var_name ++ " = " ++ fn ++
        "(\x27" ++ path ++ "\x27, \x27r\x27)\n"
    else
      "# " ++ path ++ " - Use with: " ++ var_name ++ " = " ++ fn ++
        "(\x27" ++ path ++ "\x27)\n"
  | none => "# " ++ path ++ "\n"

/-- `setup_code` (lines 143-163). -/
def setup_code : String :=
  "\n# Import common data science libraries\nimport pandas as pd\nimport numpy as np\nimport matplotlib.pyplot as plt\nimport seaborn as sns\nfrom pathlib import Path\n\n# Set matplotlib to save figures instead of displaying them\nplt.switch_backend(\x27Agg\x27)\nplt.figure(figsize=(10, 6))  # Set a default figure size\n\n# Save figures to the figures directory\nimport os\nos.makedirs(\x27/home/user/figures\x27, exist_ok=True)\n\ndef save_current_figure(name=\x27figure\x27):\n    plt.savefig(f\x27/home/user/figures/\x7bname\x7d.png\x27)\n    plt.close()\n\n"

/-- `file_loader_code` (lines 127-140). -/
def file_loader_code (file_paths : List String) : String :=
  "# File paths available for analysis:\n" ++ String.join (file_paths.map loaderLine)

/-- Lines 117-164: when files were staged, the submitted code is prefixed
with the setup and loader comment code; otherwise it is unchanged. -/
def buildCode (file_paths : List String) (code : String) : String :=
  if file_paths = [] then code
  else setup_code ++ file_loader_code file_paths ++ "\n" ++ code

/-- `E2BCodeInterpreter.upload_file` (lines 83-101).  `hasSandbox` models
`self.sandbox` being non-`None`. -/
def E2BCodeInterpreter.upload_file (ops : E2BSandboxOps) (hasSandbox : Bool)
    (file_path : String) (filename : Option String) : Except String String := do
  let _ ← (if hasSandbox then pure () else ops.sandboxInit)
  let filename := match filename with
    | some n => n
    | none => basename file_path
  let _ ← ops.make_dir "/home/user/data"
  let content ← ops.read_local_file file_path
  let sandbox_path := "/home/user/data/" ++ filename
  let _ ← ops.write_file sandbox_path content
  pure sandbox_path

/-- The file-staging loop of `execute_code` (lines 110-114): upload each
file in order, collecting the sandbox paths; the first raised exception
aborts the loop and propagates (to `execute_code`'s outer `except`). -/
def stageFiles (ops : E2BSandboxOps) : List FileInfo → Except String (List String)
  | [] => pure []
  | f :: rest => do
    let p ← E2BCodeInterpreter.upload_file ops true f.path (some f.name)
    let ps ← stageFiles ops rest
    pure (p :: ps)

/-- Base64 alphabet. -/
def b64chars : List Char :=
  "ABCDEFGHIJKLMNOPQRSTUVWXYZabcdefghijklmnopqrstuvwxyz0123456789+/".toList

/-- Character of the base64 alphabet at an index. -/
def b64char (n : Nat) : Char := b64chars.getD n 'A'

/-- `base64.b64encode(content).decode("utf-8")` over a byte list. -/
def b64encodeBytes : List Nat → List Char
  | [] => []
  | [a] => [b64char (a / 4 % 64), b64char (a % 4 * 16), '=', '=']
  | [a, b] => [b64char (a / 4 % 64), b64char (a % 4 * 16 + b / 16 % 16), b64char (b % 16 * 4), '=']
  | a :: b :: c :: rest =>
      [b64char (a / 4 % 64), b64char (a % 4 * 16 + b / 16 % 16),
       b64char (b % 16 * 4 + c / 64 % 4), b64char (c % 64)] ++ b64encodeBytes rest

/-- The figure-collection loop of `execute_code` (lines 198-208).  Python
appends each artifact to `output["artifacts"]` as it goes, so an exception
mid-loop keeps the artifacts appended so far; the model therefore returns
the collected artifacts together with the optional exception message.
Note: the loop in the source re-reads files but an exception at file `f`
discards artifacts of files after `f` only, so the pair returned is
(artifacts before the failure, failure). -/
def collectArtifacts (ops : E2BSandboxOps) : List FigFile → List Artifact × Option String
  | [] => ([], none)
  | f :: rest =>
    if f.name.endsWith ".png" || f.name.endsWith ".jpg" ||
        f.name.endsWith ".jpeg" || f.name.endsWith ".svg" then
      match ops.read_file ("/home/user/figures/" ++ f.name) with
      | .error e => ([], some e)
      | .ok content =>
        let rec_result := collectArtifacts ops rest
        ({ type := "image"
           format := lastDotComponent f.name
           data := String.mk (b64encodeBytes content) } :: rec_result.1, rec_result.2)
    else collectArtifacts ops rest

/-- The figure-processing `try` block of `execute_code` (lines 187-210):
ensure the figures directory, `ls` it, and when present list and read the
image files; any raised exception is returned as the second component (the
source then appends it to `stderr`). -/
def figuresStep (ops : E2BSandboxOps) : List Artifact × Option String :=
  match ops.make_dir "/home/user/figures" with
  | .error e => ([], some e)
  | .ok _ =>
    match ops.ls_figures with
    | .error e => ([], some e)
    | .ok ls_result =>
      if containsSub "No such file or directory" ls_result.stdout then ([], none)
      else
        match ops.list_figures with
        | .error e => ([], some e)
        | .ok fig_files => collectArtifacts ops fig_files

/-- The body of `execute_code`'s outer `try` (lines 105-212): initialize
when needed, stage files, build the submitted code, run it (the inner
`try` of lines 167-176 converts a `start_python` exception into an error
dict), then collect figures (lines 186-210).  A `.error` result models an
exception reaching the outer `except`. -/
def executeCodeInner (ops : E2BSandboxOps) (hasSandbox : Bool) (code : String)
    (files : List FileInfo) : Except String ExecDict := do
  let _ ← (if hasSandbox then pure () else ops.sandboxInit)
  let file_paths ← stageFiles ops files
  let code := buildCode file_paths code
  match ops.start_python code with
  | .error e =>
      pure { success := false, stdout := "", stderr := "Execution error: " ++ e, artifacts := [] }
  | .ok result =>
      let output : ExecDict :=
        { success := result.exit_code == 0
          stdout := result.stdout
          stderr := result.stderr
          artifacts := [] }
      let figs := figuresStep ops
      match figs.2 with
      | some e =>
          pure { output with
                 artifacts := figs.1
                 stderr := output.stderr ++ "\nError processing figures: " ++ e }
      | none => pure { output with artifacts := figs.1 }

/-- `E2BCodeInterpreter.execute_code` (lines 103-220): the outer
`try`/`except Exception` converts any exception raised by the body into
the `Internal error` dict (lines 213-220); the function itself never
raises. -/
def E2BCodeInterpreter.execute_code (ops : E2BSandboxOps) (hasSandbox : Bool)
    (code : String) (files : List FileInfo) : ExecDict :=
  match executeCodeInner ops hasSandbox code files with
  | .ok r => r
  | .error e =>
      { success := false, stdout := "", stderr := "Internal error: " ++ e, artifacts := [] }

/-- The `E2BCodeInterpreter` state relevant to `close`: whether
`self.sandbox` is set. -/
structure E2BCodeInterpreterState where
  sandbox : Option Unit
deriving DecidableEq, Repr

/-- `E2BCodeInterpreter.close` (lines 222-226): guarded by
`if self.sandbox:` — tears the sandbox down and sets `self.sandbox = None`;
with no sandbox it does nothing.  Returns the new state and the remote
events issued. -/
def E2BCodeInterpreter.close :
    E2BCodeInterpreterState → E2BCodeInterpreterState × List REvent
  | ⟨some _⟩ => (⟨none⟩, [REvent.close Sb.e2bSandbox])
  | ⟨none⟩ => (⟨none⟩, [])

/-! ## `conversation.py`: `Conversation` and `ConversationManager` -/

/-- One dict message of `Conversation.messages`:
`{"role": ..., "content": ...}`. -/
structure RoleMessage where
  role : String
  content : String
deriving DecidableEq, Repr

/-- A `Conversation` object (lines 4-8): id, uploaded-file metadata, and
dict messages. -/
structure Conversation where
  id : Option String
  files : List FileInfo
  messages : List RoleMessage
deriving DecidableEq, Repr

/-- `Conversation.add_message` (lines 23-25). -/
def Conversation.add_message (c : Conversation) (message : RoleMessage) : Conversation :=
  { c with messages := c.messages ++ [message] }

/-- `Conversation.add_files` (lines 10-21): extend `files`, then append a
system message naming the uploads. -/
def Conversation.add_files (c : Conversation) (file_data : List FileInfo) : Conversation :=
  let c := { c with files := c.files ++ file_data }
  let file_names := file_data.map (fun f => f.name)
  let file_message :=
    "User has uploaded the following files: " ++ String.intercalate ", " file_names
  c.add_message { role := "system", content := file_message }

/-- A `ConversationBufferMemory`: only its `chat_memory.messages` matter
to the embedded operations. -/
structure LCMemory where
  messages : List Message
deriving DecidableEq, Repr

/-- The `ConversationManager` state (lines 50-52): the `sessions` and
`conversations` dicts. -/
structure ConversationManager where
  sessions : List (String × LCMemory)
  conversations : List (String × Conversation)
deriving DecidableEq, Repr

/-- `ConversationManager.get_memory` (lines 54-61): get-or-create; returns
the memory and the (possibly extended) manager state. -/
def ConversationManager.get_memory (m : ConversationManager) (session_id : String) :
    LCMemory × ConversationManager :=
  match m.sessions.lookup session_id with
  | some mem => (mem, m)
  | none =>
    let mem : LCMemory := ⟨[]⟩
    (mem, { m with sessions := dictInsert session_id mem m.sessions })

/-- `ConversationManager.get_conversation` (lines 63-67). -/
def ConversationManager.get_conversation (m : ConversationManager) (session_id : String) :
    Conversation × ConversationManager :=
  match m.conversations.lookup session_id with
  | some c => (c, m)
  | none =>
    let c : Conversation := { id := some session_id, files := [], messages := [] }
    (c, { m with conversations := dictInsert session_id c m.conversations })

/-- `ConversationManager.clear_memory` (lines 69-74): delete the session's
entries from both dicts (each `del` guarded by a membership test, which
the erase operation subsumes). -/
def ConversationManager.clear_memory (m : ConversationManager) (session_id : String) :
    ConversationManager :=
  { sessions := dictErase session_id m.sessions
    conversations := dictErase session_id m.conversations }

/-! ### langchain `messages_to_dict` / `messages_from_dict`

The two helpers are langchain library code (imported at
`conversation.py` line 2), not repository code; they are embedded from
the library's documented behavior: each message serializes to a tagged
record holding its full data, and deserialization dispatches on the tag,
raising on an unknown tag. -/

/-- `message.type` for each role class. -/
def message_type_tag : MsgType → String
  | MsgType.system => "system"
  | MsgType.human => "human"
  | MsgType.ai => "ai"
  | MsgType.tool => "tool"

/-- The serialized form of one message: the type tag plus the message
data. -/
structure MessageDict where
  type : String
  content : String
  tool_calls : List ToolCall
  tool_call_id : String
  raw_output : Option CallDict
deriving DecidableEq, Repr

/-- Serialization of one message (langchain `message_to_dict`). -/
def message_to_dict (m : Message) : MessageDict :=
  { type := message_type_tag m.type
    content := m.content
    tool_calls := m.tool_calls
    tool_call_id := m.tool_call_id
    raw_output := m.raw_output }

/-- `messages_to_dict` over a history. -/
def messages_to_dict (msgs : List Message) : List MessageDict :=
  msgs.map message_to_dict

/-- Deserialization of one message (langchain `_message_from_dict`):
dispatch on the type tag; an unknown tag raises `ValueError`. -/
def message_from_dict (d : MessageDict) : Except String Message :=
  if d.type = "system" then
    .ok { type := MsgType.system, content := d.content, tool_calls := d.tool_calls
          tool_call_id := d.tool_call_id, raw_output := d.raw_output }
  else if d.type = "human" then
    .ok { type := MsgType.human, content := d.content, tool_calls := d.tool_calls
          tool_call_id := d.tool_call_id, raw_output := d.raw_output }
  else if d.type = "ai" then
    .ok { type := MsgType.ai, content := d.content, tool_calls := d.tool_calls
          tool_call_id := d.tool_call_id, raw_output := d.raw_output }
  else if d.type = "tool" then
    .ok { type := MsgType.tool, content := d.content, tool_calls := d.tool_calls
          tool_call_id := d.tool_call_id, raw_output := d.raw_output }
  else .error ("Got unexpected message type: " ++ d.type)

/-- `messages_from_dict` over a serialized history. -/
def messages_from_dict : List MessageDict → Except String (List Message)
  | [] => .ok []
  | d :: rest => do
    let m ← message_from_dict d
    let ms ← messages_from_dict rest
    pure (m :: ms)

/-- `ConversationManager.serialize_memory` (lines 76-80): serialize the
session's history, or `[]` when the session does not exist. -/
def ConversationManager.serialize_memory (m : ConversationManager) (session_id : String) :
    List MessageDict :=
  match m.sessions.lookup session_id with
  | some mem => messages_to_dict mem.messages
  | none => []

/-- `ConversationManager.load_memory` (lines 82-85): get-or-create the
session, then overwrite its `chat_memory.messages` with the deserialized
history (a `ValueError` from deserialization propagates). -/
def ConversationManager.load_memory (m : ConversationManager) (session_id : String)
    (messages_dict : List MessageDict) : Except String ConversationManager :=
  let mm := m.get_memory session_id
  match messages_from_dict messages_dict with
  | .ok msgs =>
      .ok { mm.2 with sessions := dictInsert session_id ⟨msgs⟩ mm.2.sessions }
  | .error e => .error e

/-- The history a manager state holds for a session (`[]` when absent). -/
def sessionHistory (m : ConversationManager) (session_id : String) : List Message :=
  match m.sessions.lookup session_id with
  | some mem => mem.messages
  | none => []

/-! ## `workflow.py`: the agent loop -/

/-- `messages[-1]`; the callers below only apply it to non-empty lists
(Python raises `IndexError` on an empty one). -/
def lastMessage (messages : List Message) : Message :=
  messages.getLastD default

/-- `should_continue` (lines 23-29): `END` (langgraph's `"__end__"`) when
the last message has no tool calls, `"action"` otherwise. -/
def should_continue (messages : List Message) : String :=
  if (lastMessage messages).tool_calls = [] then "__end__" else "action"

/-- The registry built in `create_workflow` (line 64):
`{tool.name: tool}`.  A tool maps its code-string argument to a result
dict or a raised exception. -/
def ToolMap := List (String × (String → Except String CallDict))

/-- The dispatch loop body of `execute_tools` (lines 37-50): for each
tool call in order, look the tool up (a missing name raises `KeyError`),
invoke it (lines 41/48; an exception propagates), and wrap the output —
via `format_to_tool_message` for the code interpreter, as a plain
`RichToolMessage` otherwise. -/
def executeToolsGo (tool_map : ToolMap) : List ToolCall → Except String (List Message)
  | [] => pure []
  | tc :: rest =>
    match tool_map.lookup tc.name with
    | none => .error ("KeyError: " ++ tc.name)
    | some tool =>
      if tc.name = CodeInterpreterFunctionTool.tool_name then do
        let output ← tool tc.args
        let tail ← executeToolsGo tool_map rest
        pure (CodeInterpreterFunctionTool.format_to_tool_message tc.id output :: tail)
      else do
        let output ← tool tc.args
        let tail ← executeToolsGo tool_map rest
        pure ({ type := MsgType.tool, content := dumpCallDict output
                tool_calls := [], tool_call_id := tc.id, raw_output := none } :: tail)

/-- `execute_tools` (lines 31-51): dispatch every tool call of the last
message, in order, returning the wrapped tool messages. -/
def execute_tools (messages : List Message) (tool_map : ToolMap) :
    Except String (List Message) :=
  executeToolsGo tool_map (lastMessage messages).tool_calls

/-- The compiled `MessageGraph` loop of `create_workflow` (lines 66-80),
run on a message list: the `agent` node appends the model response; the
conditional edge `should_continue` either ends the loop or enters the
`action` node, which appends the tool messages and loops back to `agent`.
Returns `(final messages, number of tool calls dispatched, number of
agent rounds)`, or `none` when the fuel runs out or tool dispatch raises.
`llm` is the inference service: history in, one assistant turn out. -/
def workflowRun (llm : List Message → Message) (tool_map : ToolMap) :
    Nat → List Message → Option (List Message × Nat × Nat)
  | 0, _ => none
  | fuel + 1, msgs =>
    let response := llm msgs
    let msgs1 := msgs ++ [response]
    if should_continue msgs1 = "__end__" then some (msgs1, 0, 1)
    else
      match execute_tools msgs1 tool_map with
      | .error _ => none
      | .ok tool_messages =>
        match workflowRun llm tool_map fuel (msgs1 ++ tool_messages) with
        | none => none
        | some (final, d, r) => some (final, d + response.tool_calls.length, r + 1)

/-! ### File-aware path: fenced code block extraction (lines 156-206)

`re.findall(r"```python\s*(.*?)\s*```", code_content, re.DOTALL)`: each
match pairs a literal ` ```python ` opener with the next ` ``` ` closer;
the greedy `\s*` after the opener and the minimal `(.*?)\s*` before the
closer make the captured group the text between opener and closer with
surrounding whitespace stripped.  `findallPythonGo` replays this
non-overlapping left-to-right scan with explicit fuel (one unit per
match; the remaining text shrinks at every step, so `s.length` fuel is
always enough). -/

/-- Python's `\s` on ASCII input. -/
def isPySpace (c : Char) : Bool :=
  c = ' ' ∨ c = '\t' ∨ c = '\n' ∨ c = '\r' ∨ c = '\x0b' ∨ c = '\x0c'

/-- Strip leading and trailing `\s` characters. -/
def trimChars (l : List Char) : List Char :=
  ((l.dropWhile isPySpace).reverse.dropWhile isPySpace).reverse

/-- The ` ```python ` opener. -/
def pyOpen : List Char := "```python".toList

/-- The ` ``` ` fence. -/
def fenceTicks : List Char := "```".toList

/-- Fuel-driven replay of the `findall` scan: locate the next opener, then
the next closer; capture the trimmed text between them and continue after
the closer. -/
def findallPythonGo : Nat → List Char → List (List Char)
  | 0, _ => []
  | fuel + 1, s =>
    match splitAtSub pyOpen s with
    | none => []
    | some (_, afterOpen) =>
      match splitAtSub fenceTicks afterOpen with
      | none => []
      | some (body, rest) => trimChars body :: findallPythonGo fuel rest

/-- `code_blocks` of line 158. -/
def findall_python_blocks (s : String) : List (List Char) :=
  findallPythonGo s.toList.length s.toList

/-- Markdown rendering of the artifact images (lines 179-182), appended to
the result message by position. -/
def artifactsMarkdown (arts : List Artifact) : String :=
  String.join ((List.range arts.length).zip arts |>.map (fun p =>
    if p.2.type = "image" then
      "\n\n![Figure " ++ toString (p.1 + 1) ++ "](data:image/" ++ p.2.format ++
        ";base64," ++ p.2.data ++ ")"
    else ""))

/-- `result_message` of lines 173-182: stdout inline, a flagged errors
section when stderr is non-empty, then the artifact images. -/
def formatAnalysisResult (r : ExecDict) : String :=
  let base := "**Analysis Results:**\n\n" ++ r.stdout
  let base :=
    if r.stderr ≠ "" then
      base ++ "\n\n**Errors:**\n```\n" ++ r.stderr ++ "\n```"
    else base
  base ++ artifactsMarkdown r.artifacts

/-- Outcome of the code-handling tail of
`WorkflowManager.process_message_with_files` (lines 156-206). -/
inductive FileAnalysisOutcome
  | executed (code : String) (result : ExecDict) (message : String)
  | prose (content : String)
deriving DecidableEq, Repr

/-- Lines 156-206 of `workflow.py`, given the model's `code_content` and
the interpreter (`exec_code` is `interpreter.execute_code` applied to the
session files): extract the fenced python blocks; when at least one
exists, execute `code_blocks[0]` and render the result message; otherwise
return the prose response unexecuted. -/
def processCodeContent (exec_code : String → ExecDict) (code_content : String) :
    FileAnalysisOutcome :=
  match findall_python_blocks code_content with
  | [] => FileAnalysisOutcome.prose code_content
  | b :: _ =>
    let code_to_execute := String.mk b
    let execution_result := exec_code code_to_execute
    FileAnalysisOutcome.executed code_to_execute execution_result
      (formatAnalysisResult execution_result)

/-- Modelled from the spec: "extract exactly one fenced code block from
the response (first occurrence; absence of any code block means the
model's prose response is returned unexecuted)" — a *fenced code block*
in the spec's words is any region delimited by a pair of triple-backtick
fences. -/
def hasFencedBlock (s : String) : Bool :=
  match splitAtSub fenceTicks s.toList with
  | none => false
  | some (_, rest) => (splitAtSub fenceTicks rest).isSome

/-! ## `app.py`: request-scoped resource handling and memory save -/

/-- The sandbox lifecycle events of one `/run` request
(`run_agent`, `app.py` lines 47-86), after request validation:

* line 60: `CodeInterpreterFunctionTool()` provisions its sandbox
  unconditionally, before the `try`;
* file path (lines 64-68, `conversation.files` non-empty):
  `process_with_files` → `WorkflowManager.process_message_with_files` →
  `get_code_interpreter` → `E2BCodeInterpreter.initialize` provisions the
  E2B sandbox (its internal `try`/`except` keeps errors from escaping,
  and `WorkflowManager.close` is never invoked on this path);
* no-files path (lines 70-73): the workflow runs on the local
  interpreter's sandbox only; `bodyRaises` models the loop raising
  (caught by the `except` of lines 82-83);
* lines 84-86: `finally:` always calls `local_code_interpreter.close()`.
-/
def run_agent_trace (filesPresent : Bool) (_bodyRaises : Bool) : List REvent :=
  [REvent.provision Sb.ciSandbox] ++
  (if filesPresent then [REvent.provision Sb.e2bSandbox] else []) ++
  [REvent.close Sb.ciSandbox]

/-- `WorkflowManager.close` (`workflow.py` lines 216-219): closes the E2B
interpreter when one was created.  Defined in the source but never called
by `run_agent`. -/
def WorkflowManager.close_trace (hasInterpreter : Bool) : List REvent :=
  if hasInterpreter then [REvent.close Sb.e2bSandbox] else []

/-- One iteration of the save-back loop of `process_with_memory`
(`app.py` lines 161-165): a `human` turn is appended via
`add_user_message(msg.content)`, an `ai` turn via
`add_ai_message(msg.content)`, anything else is skipped. -/
def memorySaveStep (acc : List Message) (msg : Message) : List Message :=
  if msg.type = MsgType.human then
    acc ++ [{ type := MsgType.human, content := msg.content }]
  else if msg.type = MsgType.ai then
    acc ++ [{ type := MsgType.ai, content := msg.content }]
  else acc

/-- The save-back loop of `process_with_memory` (`app.py` lines 160-166). -/
def process_with_memory_save (result : List Message) (mem : LCMemory) : LCMemory :=
  ⟨result.foldl memorySaveStep mem.messages⟩

/-! ## Demo inputs used by the claim theorems and witnesses -/

/-- A remote `run_code` that raises (e.g. the sandbox is unreachable). -/
def raisingRunCode : String → Except String Execution :=
  fun _ => .error "ConnectionError: sandbox unreachable"

/-- Oracles whose `start_python` raises and whose other operations
succeed. -/
def opsStartPythonRaises : E2BSandboxOps :=
  { sandboxInit := .ok ()
    make_dir := fun _ => .ok ()
    read_local_file := fun _ => .ok []
    write_file := fun _ _ => .ok ()
    start_python := fun _ => .error "TimeoutError: execution timed out"
    ls_figures := .ok { exit_code := 0, stdout := "", stderr := "" }
    list_figures := .ok []
    read_file := fun _ => .ok [] }

/-- Oracles whose initialization raises. -/
def opsInitRaises : E2BSandboxOps :=
  { opsStartPythonRaises with sandboxInit := .error "ProvisioningError" }

/-- A `run_code` whose execution carries an interpreter-level error. -/
def runCodeWithError : String → Except String Execution :=
  fun _ => .ok { results := [], stdout := [],
                 stderr := ["Traceback: ZeroDivisionError"],
                 error := some "ZeroDivisionError: division by zero" }

/-- The dict `call` produces for that execution. -/
def divisionErrorDict : CallDict :=
  { results := [], stdout := [], stderr := ["Traceback: ZeroDivisionError"],
    error := some "ZeroDivisionError: division by zero" }

/-- A two-call assistant turn for the dispatch witness. -/
def demoTwoCallMsg : Message :=
  { type := MsgType.ai
    content := ""
    tool_calls := [{ name := "code_interpreter", id := "call_1", args := "x = 1" },
                   { name := "code_interpreter", id := "call_2", args := "print(x)" }] }

/-- A tool registry over the code-interpreter tool whose sandbox returns
an empty successful execution. -/
def demoToolMap : ToolMap :=
  [(CodeInterpreterFunctionTool.tool_name, fun code =>
     CodeInterpreterFunctionTool.call
       (fun _ => .ok { results := [], stdout := ["ok"], stderr := [], error := none })
       [("code", code)])]

/-- A tool-result turn and an AI turn for the persistence witness. -/
def demoToolTurn : Message :=
  { type := MsgType.tool, content := "stdout: 4", tool_call_id := "call_1" }

/-- The AI answer turn for the persistence witness. -/
def demoAITurn : Message := { type := MsgType.ai, content := "The answer is 4." }

/-- System turn of the scripted scenario. -/
def demoSystemMsg : Message :=
  { type := MsgType.system
    content := "You are a helpful AI assistant with access to a Python code interpreter." }

/-- User turn of the scripted scenario. -/
def demoHumanMsg : Message := { type := MsgType.human, content := "compute 2+2" }

/-- Round-1 response of the scripted service: one tool call. -/
def scriptToolCallMsg : Message :=
  { type := MsgType.ai
    content := "Let me compute that."
    tool_calls := [{ name := "code_interpreter", id := "call_1", args := "print(2+2)" }] }

/-- Round-2 response of the scripted service: a plain answer. -/
def scriptAnswerMsg : Message := { type := MsgType.ai, content := "The answer is 4." }

/-- A scripted inference service: requests the code tool until a tool
result appears in the history (round 1), then answers plainly
(round 2). -/
def scriptedLLM (msgs : List Message) : Message :=
  if msgs.any (fun m => m.type == MsgType.tool) then scriptAnswerMsg else scriptToolCallMsg

/-- The dict `demoToolMap`'s sandbox produces for the scripted call. -/
def demoRunResultDict : CallDict :=
  { results := [], stdout := ["ok"], stderr := [], error := none }

/-- The history after the scripted run: system, human, tool-call turn,
tool result, plain answer. -/
def scriptedFinalMessages : List Message :=
  [demoSystemMsg, demoHumanMsg, scriptToolCallMsg,
   CodeInterpreterFunctionTool.format_to_tool_message "call_1" demoRunResultDict,
   scriptAnswerMsg]

/-- The model response of the counterexample: it contains a fenced code
block, but one fenced with plain ` ``` ` rather than ` ```python `. -/
def genericFenceResponse : String :=
  "Here is the code:\n```\nprint(1)\n```\nThat should work."

/-- An interpreter oracle for the extraction scenarios. -/
def demoExecCode : String → ExecDict :=
  fun _ => { success := true, stdout := "4\n", stderr := "", artifacts := [] }

/-! ## Helper lemmas -/

theorem lookup_dictInsert (k : String) (v : α) (l : List (String × α)) :
    (dictInsert k v l).lookup k = some v := by
  induction l with
  | nil => simp [dictInsert, List.lookup]
  | cons p rest ih =>
    obtain ⟨k', v'⟩ := p
    by_cases h : k' = k
    · simp [dictInsert, h, List.lookup]
    · have hk : (k == k') = false := beq_eq_false_iff_ne.mpr (fun hk => h hk.symm)
      simp only [dictInsert, if_neg h, List.lookup, hk]
      exact ih

theorem lookup_dictErase (k : String) (l : List (String × α)) :
    (dictErase k l).lookup k = none := by
  induction l with
  | nil => simp [dictErase, List.lookup]
  | cons p rest ih =>
    obtain ⟨k', v'⟩ := p
    by_cases h : k' = k
    · simpa [dictErase, List.filter, h] using ih
    · have hd : (decide ¬(k' = k)) = true := by simp [h]
      have hk : (k == k') = false := beq_eq_false_iff_ne.mpr (fun hk => h hk.symm)
      simp only [dictErase, List.filter, hd, List.lookup, hk] at ih ⊢
      exact ih

/-! ## Claim C1: exception handling of the run operation -/

/-- C1 counterexample: `CodeInterpreterFunctionTool.call` — one of the two
run operations the claim covers — wraps `run_code` in no `try`/`except`,
so with a sandbox whose `run_code` raises, `call` on the code string
`"print(1)"` propagates the raw exception to its caller instead of
returning a `success=False` result. -/
theorem call_propagates_sandbox_exception :
    CodeInterpreterFunctionTool.call raisingRunCode [("code", "print(1)")] =
      Except.error "ConnectionError: sandbox unreachable" := rfl

/-- C1 (amended): `E2BCodeInterpreter.execute_code` never propagates an
exception: (i) an exception raised anywhere in its body reaches the outer
handler and becomes the `Internal error` dict with `success=False` and a
descriptive `stderr`; (ii) an exception raised by `start_python` is
caught by the inner handler and becomes the `Execution error` dict with
`success=False`.  (`CodeInterpreterFunctionTool.call`, by contrast,
propagates raw exceptions — see the counterexample.) -/
theorem execute_code_never_raises :
    (∀ (ops : E2BSandboxOps) (hasSandbox : Bool) (code : String)
       (files : List FileInfo) (e : String),
       executeCodeInner ops hasSandbox code files = .error e →
       E2BCodeInterpreter.execute_code ops hasSandbox code files =
         { success := false, stdout := "", stderr := "Internal error: " ++ e,
           artifacts := [] }) ∧
    (∀ (ops : E2BSandboxOps) (code : String) (files : List FileInfo)
       (paths : List String) (e : String),
       stageFiles ops files = .ok paths →
       ops.start_python (buildCode paths code) = .error e →
       E2BCodeInterpreter.execute_code ops true code files =
         { success := false, stdout := "", stderr := "Execution error: " ++ e,
           artifacts := [] }) := by
  constructor
  · intro ops hsb code files e h
    unfold E2BCodeInterpreter.execute_code
    rw [h]
  · intro ops code files paths e h1 h2
    unfold E2BCodeInterpreter.execute_code executeCodeInner
    simp [h1, h2, Bind.bind, Except.bind, Pure.pure, Except.pure]

/-- Witness for `execute_code_never_raises` at concrete inputs. -/
theorem execute_code_never_raises_witness :
    E2BCodeInterpreter.execute_code opsInitRaises false "x" [] =
      { success := false, stdout := "", stderr := "Internal error: ProvisioningError",
        artifacts := [] } ∧
    E2BCodeInterpreter.execute_code opsStartPythonRaises true "print(1)" [] =
      { success := false, stdout := "",
        stderr := "Execution error: TimeoutError: execution timed out",
        artifacts := [] } :=
  ⟨execute_code_never_raises.1 opsInitRaises false "x" [] "ProvisioningError" rfl,
   execute_code_never_raises.2 opsStartPythonRaises "print(1)" [] []
     "TimeoutError: execution timed out" rfl rfl⟩

/-! ## Claim C2: `error` set ⇒ `success = false` -/

/-- C2 counterexample: `CodeInterpreterFunctionTool.call` produces a
record whose `error` field is set while its `success` field is **not**
`False` — the dict carries no `success` key at all, so `d.get("success")`
is `None`, not `False`. -/
theorem call_error_set_without_success_field :
    CodeInterpreterFunctionTool.call runCodeWithError [("code", "1/0")] =
      Except.ok divisionErrorDict ∧
    divisionErrorDict.get_error = some "ZeroDivisionError: division by zero" ∧
    divisionErrorDict.get_success ≠ some false := by
  refine ⟨rfl, rfl, ?_⟩
  decide

/-- C2 (amended): no adapter-produced record pairs a set `error` field
with a `success` field equal to `True`: records of
`CodeInterpreterFunctionTool.call` carry no `success` key at all (so when
`error` is set, `success` is absent rather than `False`), and records of
`E2BCodeInterpreter.execute_code` never carry an `error` key. -/
theorem error_set_implies_success_not_true :
    (∀ (run_code : String → Except String Execution)
       (parameters : List (String × String)) (d : CallDict),
       CodeInterpreterFunctionTool.call run_code parameters = .ok d →
       d.get_error.isSome → d.get_success ≠ some true) ∧
    (∀ (ops : E2BSandboxOps) (hasSandbox : Bool) (code : String)
       (files : List FileInfo),
       (E2BCodeInterpreter.execute_code ops hasSandbox code files).get_error = none) := by
  constructor
  · intro _ _ d _ _
    simp [CallDict.get_success]
  · intro ops hsb code files
    rfl

/-- Witness for `error_set_implies_success_not_true` at the concrete
division-by-zero record. -/
theorem error_set_implies_success_not_true_witness :
    divisionErrorDict.get_success ≠ some true ∧
    (E2BCodeInterpreter.execute_code opsStartPythonRaises true "1/0" []).get_error = none :=
  ⟨error_set_implies_success_not_true.1 runCodeWithError [("code", "1/0")]
      divisionErrorDict rfl rfl,
   error_set_implies_success_not_true.2 opsStartPythonRaises true "1/0" []⟩

/-! ## Claim C4: sandbox teardown on request exit paths -/

/-- C4: the locally provisioned `CodeInterpreterSandbox` is closed on
every exit path of `run_agent` (every combination of files/raise), but on
the file path the request provisions the E2B sandbox and its trace
contains **no** matching close: `WorkflowManager.close` is defined yet
never invoked by `run_agent`, so that sandbox leaks. -/
theorem run_agent_leaks_e2b_sandbox :
    (∀ (filesPresent bodyRaises : Bool),
       REvent.close Sb.ciSandbox ∈ run_agent_trace filesPresent bodyRaises) ∧
    REvent.provision Sb.e2bSandbox ∈ run_agent_trace true false ∧
    REvent.close Sb.e2bSandbox ∉ run_agent_trace true false ∧
    WorkflowManager.close_trace true = [REvent.close Sb.e2bSandbox] := by
  refine ⟨?_, ?_, ?_, rfl⟩ <;> decide

/-! ## Claim C6: clearing a session yields a fresh empty session -/

/-- C6: after `clear_memory`, a `get_memory`/`get_conversation` for the
same id returns a fresh session: empty message history, no files, no dict
messages. -/
theorem clear_yields_fresh_session :
    ∀ (m : ConversationManager) (session_id : String),
      ((m.clear_memory session_id).get_memory session_id).1.messages = [] ∧
      ((m.clear_memory session_id).get_conversation session_id).1.files = [] ∧
      ((m.clear_memory session_id).get_conversation session_id).1.messages = [] := by
  intro m sid
  have h1 : ((m.clear_memory sid).sessions).lookup sid = none := lookup_dictErase sid _
  have h2 : ((m.clear_memory sid).conversations).lookup sid = none := lookup_dictErase sid _
  simp [ConversationManager.get_memory, ConversationManager.get_conversation, h1, h2]

/-! ## Claim C7: idempotence of `close()` -/

/-- C7 counterexample: the second `close()` of a
`CodeInterpreterFunctionTool` is not effect-free — every call issues the
remote `kill` again (there is no already-closed guard), so the event
trace of two closes differs from that of one close. -/
theorem ci_tool_second_close_not_noop :
    CodeInterpreterFunctionTool.closeEvents ++ CodeInterpreterFunctionTool.closeEvents ≠
      CodeInterpreterFunctionTool.closeEvents ∧
    CodeInterpreterFunctionTool.closeEvents ≠ [] := by
  decide

/-- C7 (amended): `E2BCodeInterpreter.close` is idempotent — a second
close after a first one leaves the state unchanged and performs no remote
operation; `CodeInterpreterFunctionTool.close`, by contrast, re-issues
the remote kill on every call. -/
theorem e2b_close_idempotent :
    (∀ st : E2BCodeInterpreterState,
       E2BCodeInterpreter.close (E2BCodeInterpreter.close st).1 =
         ((E2BCodeInterpreter.close st).1, [])) ∧
    CodeInterpreterFunctionTool.closeEvents ++ CodeInterpreterFunctionTool.closeEvents =
      [REvent.close Sb.ciSandbox, REvent.close Sb.ciSandbox] := by
  constructor
  · intro st
    obtain ⟨s⟩ := st
    cases s <;> rfl
  · rfl

/-! ## Claim C5: serialize/deserialize round-trip -/

theorem message_roundtrip (m : Message) :
    message_from_dict (message_to_dict m) = .ok m := by
  obtain ⟨t, c, tc, id, ro⟩ := m
  cases t <;> rfl

theorem messages_roundtrip (msgs : List Message) :
    messages_from_dict (messages_to_dict msgs) = .ok msgs := by
  induction msgs with
  | nil => rfl
  | cons m rest ih =>
    show messages_from_dict (message_to_dict m :: messages_to_dict rest) = .ok (m :: rest)
    simp [messages_from_dict, message_roundtrip, ih, Bind.bind, Except.bind,
      Pure.pure, Except.pure]

/-- C5: round-trip.  (i) `deserialize(serialize(history)) == history` for
every history of the defined turn roles; (ii) at the manager level,
`load_memory` applied to `serialize_memory`'s output succeeds and
restores the session's history exactly — same turns, same order, same
role tags (for an absent session both sides are the empty history). -/
theorem serialize_deserialize_roundtrip :
    (∀ msgs : List Message, messages_from_dict (messages_to_dict msgs) = .ok msgs) ∧
    (∀ (m : ConversationManager) (session_id : String),
       (m.load_memory session_id (m.serialize_memory session_id)).map
           (fun m2 => sessionHistory m2 session_id) =
         .ok (sessionHistory m session_id)) := by
  refine ⟨messages_roundtrip, ?_⟩
  intro m sid
  unfold ConversationManager.load_memory ConversationManager.serialize_memory
    ConversationManager.get_memory sessionHistory
  cases h : m.sessions.lookup sid with
  | some mem =>
    simp [h, messages_roundtrip, Except.map, lookup_dictInsert]
  | none =>
    simp [h, messages_from_dict, Except.map, lookup_dictInsert]

/-! ## Claim C9: sequential in-order dispatch with matching ids -/

theorem executeToolsGo_ids (tool_map : ToolMap) :
    ∀ (calls : List ToolCall) (msgs : List Message),
      executeToolsGo tool_map calls = .ok msgs →
      msgs.map (fun m => m.tool_call_id) = calls.map (fun tc => tc.id) := by
  intro calls
  induction calls with
  | nil =>
    intro msgs h
    obtain rfl : ([] : List Message) = msgs := by
      simpa [executeToolsGo, Pure.pure, Except.pure] using h
    rfl
  | cons tc rest ih =>
    intro msgs h
    simp only [executeToolsGo] at h
    cases hl : tool_map.lookup tc.name with
    | none => rw [hl] at h; simp at h
    | some tool =>
      rw [hl] at h
      dsimp only at h
      by_cases hn : tc.name = CodeInterpreterFunctionTool.tool_name
      · rw [if_pos hn] at h
        cases ho : tool tc.args with
        | error e => rw [ho] at h; simp [Bind.bind, Except.bind] at h
        | ok output =>
          rw [ho] at h
          cases hg : executeToolsGo tool_map rest with
          | error e => rw [hg] at h; simp [Bind.bind, Except.bind] at h
          | ok tail =>
            rw [hg] at h
            simp only [Bind.bind, Except.bind, Pure.pure, Except.pure,
              Except.ok.injEq] at h
            subst h
            simp [CodeInterpreterFunctionTool.format_to_tool_message, ih tail hg]
      · rw [if_neg hn] at h
        cases ho : tool tc.args with
        | error e => rw [ho] at h; simp [Bind.bind, Except.bind] at h
        | ok output =>
          rw [ho] at h
          cases hg : executeToolsGo tool_map rest with
          | error e => rw [hg] at h; simp [Bind.bind, Except.bind] at h
          | ok tail =>
            rw [hg] at h
            simp only [Bind.bind, Except.bind, Pure.pure, Except.pure,
              Except.ok.injEq] at h
            subst h
            simp [ih tail hg]

/-- C9: when `execute_tools` succeeds, the wrapped results correspond
one-to-one, in order, to the tool calls of the last assistant message:
the list of `tool_call_id`s carried by the produced messages equals the
list of the requests' `id`s — same length, same order, matching
identifiers position by position. -/
theorem execute_tools_preserves_order_and_ids :
    ∀ (messages : List Message) (tool_map : ToolMap) (tool_messages : List Message),
      execute_tools messages tool_map = .ok tool_messages →
      tool_messages.map (fun m => m.tool_call_id) =
        (lastMessage messages).tool_calls.map (fun tc => tc.id) := by
  intro messages tool_map tool_messages h
  exact executeToolsGo_ids tool_map _ tool_messages h

/-- Witness for `execute_tools_preserves_order_and_ids` at a concrete
two-call turn. -/
theorem execute_tools_preserves_order_and_ids_witness :
    ∃ tool_messages,
      execute_tools [demoTwoCallMsg] demoToolMap = .ok tool_messages ∧
      tool_messages.map (fun m => m.tool_call_id) = ["call_1", "call_2"] := by
  refine ⟨_, rfl, ?_⟩
  exact execute_tools_preserves_order_and_ids [demoTwoCallMsg] demoToolMap _ rfl

/-! ## Claim C10: only human and ai turns are persisted -/

theorem memorySave_foldl (result : List Message) :
    ∀ acc : List Message,
      result.foldl memorySaveStep acc =
        acc ++ (result.filter
            (fun m => m.type = MsgType.human ∨ m.type = MsgType.ai)).map
          (fun m => { type := m.type, content := m.content }) := by
  induction result with
  | nil => intro acc; simp
  | cons m rest ih =>
    intro acc
    rw [List.foldl_cons]
    cases ht : m.type with
    | human =>
      have hstep : memorySaveStep acc m =
          acc ++ [{ type := MsgType.human, content := m.content }] := by
        simp [memorySaveStep, ht]
      rw [hstep, ih]
      simp [List.filter_cons, ht, List.append_assoc]
    | ai =>
      have hstep : memorySaveStep acc m =
          acc ++ [{ type := MsgType.ai, content := m.content }] := by
        simp [memorySaveStep, ht]
      rw [hstep, ih]
      simp [List.filter_cons, ht, List.append_assoc]
    | system =>
      have hstep : memorySaveStep acc m = acc := by simp [memorySaveStep, ht]
      rw [hstep, ih]
      simp [List.filter_cons, ht]
    | tool =>
      have hstep : memorySaveStep acc m = acc := by simp [memorySaveStep, ht]
      rw [hstep, ih]
      simp [List.filter_cons, ht]

/-- C10: the memory saved back after a workflow round consists of the old
memory followed by exactly the `human` and `ai` turns of the round (as
plain messages of the same role, in order); consequently every message in
the replayed history either was already there or has role `human`/`ai` —
`system` and tool-result turns of the round are never persisted. -/
theorem memory_save_only_human_ai :
    ∀ (result : List Message) (mem : LCMemory),
      (process_with_memory_save result mem).messages =
        mem.messages ++
          (result.filter (fun m => m.type = MsgType.human ∨ m.type = MsgType.ai)).map
            (fun m => { type := m.type, content := m.content }) ∧
      (∀ m2 ∈ (process_with_memory_save result mem).messages,
         m2 ∈ mem.messages ∨ m2.type = MsgType.human ∨ m2.type = MsgType.ai) := by
  intro result mem
  have heq := memorySave_foldl result mem.messages
  refine ⟨heq, ?_⟩
  intro m2 hm2
  have hm2' : m2 ∈ mem.messages ++
      (result.filter (fun m => m.type = MsgType.human ∨ m.type = MsgType.ai)).map
        (fun m => ({ type := m.type, content := m.content } : Message)) := by
    have : (process_with_memory_save result mem).messages =
        mem.messages ++ _ := heq
    rwa [this] at hm2
  rcases List.mem_append.mp hm2' with hin | hin
  · exact Or.inl hin
  · right
    obtain ⟨m, hmf, rfl⟩ := List.mem_map.mp hin
    have hp := List.of_mem_filter hmf
    simpa using hp

/-- Witness for `memory_save_only_human_ai`: saving a round consisting of
a tool turn and an AI turn into an empty memory persists a message that
is of role `ai` (the tool turn is dropped). -/
theorem memory_save_only_human_ai_witness :
    ({ type := MsgType.ai, content := "The answer is 4." } : Message) ∈
        (⟨[]⟩ : LCMemory).messages ∨
      ({ type := MsgType.ai, content := "The answer is 4." } : Message).type = MsgType.human ∨
      ({ type := MsgType.ai, content := "The answer is 4." } : Message).type = MsgType.ai :=
  (memory_save_only_human_ai [demoToolTurn, demoAITurn] ⟨[]⟩).2
    { type := MsgType.ai, content := "The answer is 4." } (by decide)

/-! ## Claim C3: loop termination -/

theorem lastMessage_append (msgs : List Message) (m : Message) :
    lastMessage (msgs ++ [m]) = m := by
  simp [lastMessage]

/-- C3: (i) `should_continue` ends the loop exactly when the last
(model) message carries no tool calls; (ii) whenever the model response
to the current history has no tool calls, the loop appends it and
terminates in that round with zero dispatches; (iii) under the scripted
service — tool call on round 1, plain answer on round 2 — the loop
performs exactly one tool dispatch and terminates after round 2. -/
theorem loop_terminates_iff_no_tool_calls :
    (∀ messages : List Message, messages ≠ [] →
       (should_continue messages = "__end__" ↔ (lastMessage messages).tool_calls = [])) ∧
    (∀ (llm : List Message → Message) (tool_map : ToolMap) (fuel : Nat)
       (msgs : List Message),
       (llm msgs).tool_calls = [] →
       workflowRun llm tool_map (fuel + 1) msgs = some (msgs ++ [llm msgs], 0, 1)) ∧
    workflowRun scriptedLLM demoToolMap 10 [demoSystemMsg, demoHumanMsg] =
      some (scriptedFinalMessages, 1, 2) := by
  refine ⟨?_, ?_, ?_⟩
  · intro messages _
    constructor
    · intro h
      by_contra hne
      rw [should_continue, if_neg hne] at h
      exact absurd h (by decide)
    · intro h
      rw [should_continue, if_pos h]
  · intro llm tool_map fuel msgs h
    have hend : should_continue (msgs ++ [llm msgs]) = "__end__" := by
      rw [should_continue, if_pos (by rw [lastMessage_append]; exact h)]
    simp [workflowRun, hend]
  · decide

/-- Witness for `loop_terminates_iff_no_tool_calls` at concrete inputs:
the termination test on a one-answer history, and one terminating round
from the post-dispatch scripted history. -/
theorem loop_terminates_iff_no_tool_calls_witness :
    (should_continue [scriptAnswerMsg] = "__end__" ↔
       (lastMessage [scriptAnswerMsg]).tool_calls = []) ∧
    workflowRun scriptedLLM demoToolMap 3
        [demoSystemMsg, demoHumanMsg, scriptToolCallMsg,
         CodeInterpreterFunctionTool.format_to_tool_message "call_1" demoRunResultDict] =
      some ([demoSystemMsg, demoHumanMsg, scriptToolCallMsg,
             CodeInterpreterFunctionTool.format_to_tool_message "call_1" demoRunResultDict,
             scriptAnswerMsg], 0, 1) :=
  ⟨loop_terminates_iff_no_tool_calls.1 [scriptAnswerMsg] (by decide),
   loop_terminates_iff_no_tool_calls.2.1 scriptedLLM demoToolMap 2 _ (by decide)⟩

/-! ## Claim C8: fenced code block extraction on the file-aware path -/

theorem isPrefixOf_append_self (l t : List Char) : l.isPrefixOf (l ++ t) = true := by
  induction l with
  | nil => cases t <;> rfl
  | cons a as ih => simp [List.isPrefixOf, ih]

/-- Scanning past characters that cannot start the pattern: when no
character of `xs` equals the pattern's first character, the split of
`xs ++ rest` is the split of `rest` with `xs` prepended to the left
part. -/
theorem splitAtSub_skip (pat : List Char) (c0 : Char) (hpat : pat.head? = some c0)
    (xs rest : List Char) (hx : ∀ c ∈ xs, c ≠ c0) :
    splitAtSub pat (xs ++ rest) =
      (splitAtSub pat rest).map (fun p => (xs ++ p.1, p.2)) := by
  induction xs with
  | nil =>
    cases h : splitAtSub pat rest <;> simp [h]
  | cons c xs ih =>
    have hc : c ≠ c0 := hx c (by simp)
    have hpre : pat.isPrefixOf (c :: (xs ++ rest)) = false := by
      cases pat with
      | nil => simp at hpat
      | cons p ps =>
        have hp : p = c0 := by simpa using hpat
        have hb : (p == c) = false := by
          rw [hp]
          exact beq_eq_false_iff_ne.mpr (fun he => hc he.symm)
        simp only [List.isPrefixOf, hb, Bool.false_and]
    have hx' : ∀ c2 ∈ xs, c2 ≠ c0 := fun c2 hc2 => hx c2 (by simp [hc2])
    simp only [List.cons_append, splitAtSub, hpre, Bool.false_eq_true, if_false,
      List.append_eq]
    rw [ih hx']
    cases h : splitAtSub pat rest <;> simp [h]

/-- The split of `pat ++ ys` at `pat` is immediate. -/
theorem splitAtSub_here (pat ys : List Char) (hp : pat ≠ []) :
    splitAtSub pat (pat ++ ys) = some ([], ys) := by
  cases pat with
  | nil => exact absurd rfl hp
  | cons p ps =>
    have hpre : (p :: ps).isPrefixOf (p :: (ps ++ ys)) = true :=
      isPrefixOf_append_self (p :: ps) ys
    have hdrop : (p :: (ps ++ ys)).drop ((p :: ps).length) = ys := by
      show (ps ++ ys).drop ps.length = ys
      exact List.drop_left ps ys
    simp only [List.cons_append, splitAtSub, List.append_eq, hpre, if_true]
    rw [hdrop]

/-- The first block `findall` captures on a response of the shape
`pre ++ "```python" ++ body ++ "```" ++ rest` (with `pre` and `body`
backtick-free) is the whitespace-trimmed `body`. -/
theorem findall_first_block (pre body rest : List Char)
    (hpre : ∀ c ∈ pre, c ≠ '`') (hbody : ∀ c ∈ body, c ≠ '`') :
    ∃ tail,
      findall_python_blocks
          (String.mk (pre ++ (pyOpen ++ (body ++ (fenceTicks ++ rest))))) =
        trimChars body :: tail := by
  have h1 : splitAtSub pyOpen (pre ++ (pyOpen ++ (body ++ (fenceTicks ++ rest)))) =
      some (pre, body ++ (fenceTicks ++ rest)) := by
    rw [splitAtSub_skip pyOpen '`' rfl pre _ hpre,
      splitAtSub_here pyOpen _ (by decide)]
    simp
  have h2 : splitAtSub fenceTicks (body ++ (fenceTicks ++ rest)) = some (body, rest) := by
    rw [splitAtSub_skip fenceTicks '`' rfl body _ hbody,
      splitAtSub_here fenceTicks _ (by decide)]
    simp
  have hlen : 0 < (pre ++ (pyOpen ++ (body ++ (fenceTicks ++ rest)))).length := by
    have h9 : 0 < pyOpen.length := by decide
    simp only [List.length_append]
    omega
  unfold findall_python_blocks
  rcases hsl : (pre ++ (pyOpen ++ (body ++ (fenceTicks ++ rest)))).length with _ | k
  · exact absurd hsl (Nat.pos_iff_ne_zero.mp (by simpa using hlen))
  · refine ⟨findallPythonGo k rest, ?_⟩
    have hts : (String.mk (pre ++ (pyOpen ++ (body ++ (fenceTicks ++ rest))))).toList =
        pre ++ (pyOpen ++ (body ++ (fenceTicks ++ rest))) := rfl
    rw [hts, hsl]
    simp only [findallPythonGo, h1, h2]

/-- C8 counterexample: a response containing a fenced code block (in the
spec's words) whose fence carries no `python` tag is **not** executed —
the extraction regex only matches ` ```python ` fences, so the file-aware
path returns the response as prose. -/
theorem generic_fence_not_extracted :
    hasFencedBlock genericFenceResponse = true ∧
    processCodeContent demoExecCode genericFenceResponse =
      FileAnalysisOutcome.prose genericFenceResponse := by
  constructor
  · decide
  · rfl

/-- C8 (amended): the file-aware path extracts exactly the **first**
` ```python `-fenced code block of the model response and executes it
(whitespace-trimmed, all later blocks ignored); when the response
contains no ` ```python `-fenced block, the prose response is returned
unexecuted.  (A block fenced with a bare ` ``` ` is not extracted — see
the counterexample.) -/
theorem first_python_block_extracted :
    (∀ (exec_code : String → ExecDict) (pre body rest : List Char),
       (∀ c ∈ pre, c ≠ '`') → (∀ c ∈ body, c ≠ '`') →
       processCodeContent exec_code
           (String.mk (pre ++ (pyOpen ++ (body ++ (fenceTicks ++ rest))))) =
         FileAnalysisOutcome.executed (String.mk (trimChars body))
           (exec_code (String.mk (trimChars body)))
           (formatAnalysisResult (exec_code (String.mk (trimChars body))))) ∧
    (∀ (exec_code : String → ExecDict) (content : String),
       findall_python_blocks content = [] →
       processCodeContent exec_code content = FileAnalysisOutcome.prose content) := by
  constructor
  · intro exec_code pre body rest hp hb
    obtain ⟨tail, hf⟩ := findall_first_block pre body rest hp hb
    simp [processCodeContent, hf]
  · intro exec_code content h
    simp [processCodeContent, h]

/-- Witness for `first_python_block_extracted` at concrete responses: a
response whose first python fence wraps `print(2+2)` is executed on
exactly that code; a response without a python fence is returned as
prose. -/
theorem first_python_block_extracted_witness :
    processCodeContent demoExecCode
        (String.mk ("Sure:\n".toList ++ (pyOpen ++ ("\nprint(2+2)\n".toList ++
          (fenceTicks ++ "\nDone.".toList))))) =
      FileAnalysisOutcome.executed "print(2+2)" (demoExecCode "print(2+2)")
        (formatAnalysisResult (demoExecCode "print(2+2)")) ∧
    processCodeContent demoExecCode "There is no code here." =
      FileAnalysisOutcome.prose "There is no code here." :=
  ⟨first_python_block_extracted.1 demoExecCode "Sure:\n".toList "\nprint(2+2)\n".toList
      "\nDone.".toList (by decide) (by decide),
   first_python_block_extracted.2 demoExecCode "There is no code here." (by decide)⟩

end PythonE2B
